import Mathlib

/-!
# IoTex core — verification of the specified behaviours

Shallow embedding, in Lean 4, of the IoTex core components that the
specification describes: the immutable device-state merge
(`src/domain/device.ts`), the bounded command queue
(`src/core/command-queue.ts`), the retry policy with exponential backoff
(`retry.ts`), the MQTT topic matcher and topic-to-device-id mapper, the
adapter registry, the resource-URI slug normalisation, the MQTT client's
subscription-restore wiring, and the device manager's registration rules.

JavaScript objects are modelled as insertion-ordered association lists of
own properties; JavaScript numbers that matter to the claims are modelled
as `ℚ` (so that non-integer capacities and fractional delays are exact);
thrown exceptions are modelled with `Except` over a `JSError` type.
-/

namespace IoTex

/-- JavaScript errors thrown by the core, tagged with their class. -/
inductive JSError where
  | typeError : String → JSError
  | rangeError : String → JSError
  | error : String → JSError
deriving DecidableEq, Repr

/-! ## JSON-compatible JavaScript values (`src/domain/device.ts` model)

A device state is an open-ended key/value object.  `JVal.absentValue` is the
`undefined` sentinel: a patch key carrying it is dropped by the merge. -/

/-- A JSON-compatible JavaScript value, plus the `undefined` sentinel. -/
inductive JVal where
  | absentValue : JVal
  | jnull : JVal
  | jbool : Bool → JVal
  | jnum : Int → JVal
  | jstr : String → JVal
  | jarr : List JVal → JVal
  | jobj : List (String × JVal) → JVal

/-- Is this value the `undefined` sentinel?  (`value !== undefined` test.) -/
def JVal.isAbsent : JVal → Bool
  | .absentValue => true
  | _ => false

/-- A plain JavaScript object: own properties in insertion order. -/
abbrev JObj := List (String × JVal)

/-- Property read (`obj[key]`): the value at the first matching key. -/
def getKey : JObj → String → Option JVal
  | [], _ => none
  | (k', v) :: rest, k => if k' = k then some v else getKey rest k

/-- Property write (`obj[key] = v`): update in place, or append a new key. -/
def setKey : JObj → String → JVal → JObj
  | [], k, v => [(k, v)]
  | (k', v') :: rest, k, v =>
    if k' = k then (k', v) :: rest else (k', v') :: setKey rest k v

/-- `mergeDeviceState` (src/domain/device.ts): spread-copy `prev`, then for
each own key of `patch` whose value is not `undefined`, overwrite. -/
def mergeDeviceState (prev patch : JObj) : JObj :=
  patch.foldl (fun result kv => if kv.2.isAbsent then result else setKey result kv.1 kv.2) prev

theorem getKey_setKey (l : JObj) (k q : String) (v : JVal) :
    getKey (setKey l k v) q = if q = k then some v else getKey l q := by
  induction l with
  | nil =>
    by_cases h : q = k
    · subst h; simp [setKey, getKey]
    · have h' : ¬ k = q := fun hh => h hh.symm
      simp [setKey, getKey, h, h']
  | cons hd tl ih =>
    obtain ⟨a, b⟩ := hd
    by_cases hak : a = k
    · subst hak
      by_cases haq : a = q
      · subst haq; simp [setKey, getKey]
      · have haq' : ¬ q = a := fun hh => haq hh.symm
        simp [setKey, getKey, haq, haq']
    · by_cases haq : a = q
      · subst haq
        simp [setKey, getKey, hak]
      · simp [setKey, getKey, hak, haq, ih]

theorem getKey_eq_none_of_not_mem (l : JObj) (k : String) (h : k ∉ l.map Prod.fst) :
    getKey l k = none := by
  induction l with
  | nil => rfl
  | cons hd tl ih =>
    simp only [List.map_cons, List.mem_cons] at h
    push_neg at h
    simp only [getKey]
    rw [if_neg (fun hh => h.1 hh.symm)]
    exact ih h.2

theorem mergeDeviceState_cons (prev : JObj) (k : String) (v : JVal) (rest : JObj) :
    mergeDeviceState prev ((k, v) :: rest)
      = mergeDeviceState (if v.isAbsent then prev else setKey prev k v) rest := by
  by_cases h : v.isAbsent <;> simp [mergeDeviceState, h]

/-- **C1.** `mergeDeviceState(S, P)` equals `S` with each own key of `P`
whose value is not `undefined` overwritten by `P`'s value; keys of `P`
carrying `undefined` are dropped, not written (the previous value, present
or absent, is what the result holds there).  The embedding is a pure
function, so `S` itself is never mutated; values are replaced wholesale
(no deep merge), as the `some v` branch returns `P`'s value verbatim. -/
theorem mergeDeviceState_correct (prev patch : JObj)
    (hnodup : (patch.map Prod.fst).Nodup) (k : String) :
    getKey (mergeDeviceState prev patch) k =
      match getKey patch k with
      | some v => if v.isAbsent then getKey prev k else some v
      | none => getKey prev k := by
  induction patch generalizing prev with
  | nil => simp [mergeDeviceState, getKey]
  | cons hd rest ih =>
    obtain ⟨k₀, v₀⟩ := hd
    simp only [List.map_cons, List.nodup_cons] at hnodup
    obtain ⟨hk₀, hrest⟩ := hnodup
    rw [mergeDeviceState_cons, ih _ hrest]
    by_cases hkk : k₀ = k
    · subst hkk
      rw [getKey_eq_none_of_not_mem rest k₀ hk₀]
      simp only [getKey, if_pos rfl]
      by_cases hu : v₀.isAbsent
      · simp [hu]
      · simp [hu, getKey_setKey]
    · have hcons : getKey ((k₀, v₀) :: rest) k = getKey rest k := by
        simp [getKey, hkk]
      have hkk' : ¬ k = k₀ := fun h => hkk h.symm
      rw [hcons]
      cases hrk : getKey rest k with
      | none =>
        simp only
        by_cases hu : v₀.isAbsent
        · simp [hu]
        · simp [hu, getKey_setKey, hkk']
      | some v =>
        simp only
        by_cases hv : v.isAbsent
        · simp only [hv, if_true]
          by_cases hu : v₀.isAbsent
          · simp [hu]
          · simp [hu, getKey_setKey, hkk']
        · simp [hv]

/-- Witness for C1 at a concrete state and patch: the patch overwrites
`power`, drops the `undefined`-valued `mode`, and leaves `brightness`. -/
theorem mergeDeviceState_correct_witness :
    (([("power", JVal.jstr "on"), ("mode", JVal.absentValue)].map Prod.fst).Nodup ∧
      getKey (mergeDeviceState [("brightness", JVal.jnum 50), ("power", JVal.jstr "off")]
          [("power", JVal.jstr "on"), ("mode", JVal.absentValue)]) "power" =
        match getKey [("power", JVal.jstr "on"), ("mode", JVal.absentValue)] "power" with
        | some v => if v.isAbsent then
            getKey [("brightness", JVal.jnum 50), ("power", JVal.jstr "off")] "power" else some v
        | none => getKey [("brightness", JVal.jnum 50), ("power", JVal.jstr "off")] "power") ∧
    getKey (mergeDeviceState [("brightness", JVal.jnum 50), ("power", JVal.jstr "off")]
        [("power", JVal.jstr "on"), ("mode", JVal.absentValue)]) "power" = some (JVal.jstr "on") := by
  refine ⟨⟨by simp, mergeDeviceState_correct _ _ (by simp) "power"⟩, ?_⟩
  rfl

/-! ## Bounded command queue (`src/core/command-queue.ts`) -/

/-- A command queue: the fixed capacity and the buffered commands (FIFO). -/
structure CommandQueue (T : Type) where
  maxSize : Nat
  queue : List T

/-- The queue-full `RangeError` thrown by `enqueue`. -/
def queueFullError : JSError := .rangeError "Command queue is full, cannot enqueue"

/-- `createCommandQueue(maxSize)`: rejects a non-integer or non-positive
capacity with a `RangeError`, otherwise starts with an empty buffer.  The
capacity is a JavaScript number, modelled as `ℚ` so that non-integer
inputs are representable. -/
def createCommandQueue (T : Type) (maxSize : ℚ) : Except JSError (CommandQueue T) :=
  if ¬ maxSize.isInt ∨ maxSize ≤ 0 then
    .error (.rangeError "maxSize must be a positive integer")
  else
    .ok { maxSize := maxSize.num.toNat, queue := [] }

/-- `enqueue(cmd)`: `RangeError` when full (the queue is not modified and
nothing is evicted), otherwise push and return the new length. -/
def enqueue {T : Type} (q : CommandQueue T) (cmd : T) :
    Except JSError (CommandQueue T × Nat) :=
  if q.queue.length ≥ q.maxSize then .error queueFullError
  else
    let q' : CommandQueue T := { q with queue := q.queue ++ [cmd] }
    .ok (q', q'.queue.length)

/-- `dequeue()`: `Array.shift()` — the head (or `undefined`) and the rest. -/
def dequeue {T : Type} (q : CommandQueue T) : Option T × CommandQueue T :=
  (q.queue.head?, { q with queue := q.queue.tail })

/-- `size()`. -/
def CommandQueue.size {T : Type} (q : CommandQueue T) : Nat := q.queue.length

/-- A sequence of consecutive `enqueue` calls, stopping at the first error. -/
def enqueueAll {T : Type} (q : CommandQueue T) : List T → Except JSError (CommandQueue T)
  | [] => .ok q
  | c :: cs =>
    match enqueue q c with
    | .error e => .error e
    | .ok (q', _) => enqueueAll q' cs

theorem enqueueAll_ok {T : Type} (cmds : List T) (q : CommandQueue T)
    (h : q.queue.length + cmds.length ≤ q.maxSize) :
    enqueueAll q cmds = .ok { maxSize := q.maxSize, queue := q.queue ++ cmds } := by
  induction cmds generalizing q with
  | nil => simp [enqueueAll]
  | cons c cs ih =>
    have hlt : q.queue.length < q.maxSize := by
      simp only [List.length_cons] at h
      omega
    simp only [enqueueAll, enqueue, if_neg (not_le.mpr hlt)]
    rw [ih]
    · simp
    · simp only [List.length_append, List.length_singleton]
      simp only [List.length_cons] at h
      omega

/-- **C2.** A queue of positive-integer capacity `n`, starting empty,
accepts `n` consecutive enqueues, and the `(n+1)`-th enqueue fails with
the queue-full `RangeError` (no blocking, no eviction — the failed call
returns no modified queue); after one dequeue exactly one more enqueue
succeeds (returning size `n`) before the queue is full again; and
construction with a non-integer or non-positive capacity fails with a
`RangeError`. -/
theorem commandQueue_capacity (T : Type) (n : Nat) (hn : 0 < n) (cmds : List T)
    (hlen : cmds.length = n) (extra c : T) :
    (∃ q : CommandQueue T, createCommandQueue T (n : ℚ) = .ok q ∧
      ∃ q' : CommandQueue T, enqueueAll q cmds = .ok q' ∧
        q'.queue = cmds ∧
        enqueue q' extra = .error queueFullError ∧
        ∃ q'' : CommandQueue T, enqueue (dequeue q').2 c = .ok (q'', n) ∧
          enqueue q'' extra = .error queueFullError) ∧
    (∀ m : ℚ, ¬ m.isInt ∨ m ≤ 0 →
      createCommandQueue T m = .error (.rangeError "maxSize must be a positive integer")) := by
  constructor
  · have hint : ((n : ℚ)).isInt := by
      simp [Rat.isInt]
    have hpos : ¬ ((n : ℚ) ≤ 0) := by
      rw [not_le]
      exact_mod_cast hn
    have hq : createCommandQueue T (n : ℚ) = .ok { maxSize := n, queue := [] } := by
      simp [createCommandQueue, hint, hpos]
    refine ⟨{ maxSize := n, queue := [] }, hq, ?_⟩
    have hall : enqueueAll { maxSize := n, queue := ([] : List T) } cmds
        = .ok { maxSize := n, queue := cmds } := by
      have := enqueueAll_ok cmds { maxSize := n, queue := ([] : List T) }
        (by simp [hlen])
      simpa using this
    refine ⟨{ maxSize := n, queue := cmds }, hall, rfl, ?_, ?_⟩
    · simp [enqueue, hlen, queueFullError]
    · have htail : (dequeue { maxSize := n, queue := cmds }).2
          = { maxSize := n, queue := cmds.tail } := rfl
      rw [htail]
      have htl : cmds.tail.length = n - 1 := by
        rw [List.length_tail, hlen]
      have hlen' : (cmds.tail ++ [c]).length = n := by
        simp only [List.length_append, List.length_singleton, htl]
        omega
      refine ⟨{ maxSize := n, queue := cmds.tail ++ [c] }, ?_, ?_⟩
      · have hlt : cmds.tail.length < n := by omega
        simp only [enqueue, if_neg (not_le.mpr hlt)]
        rw [hlen']
      · have hfull : (cmds.tail ++ [c]).length ≥ n := le_of_eq hlen'.symm
        simp only [enqueue]
        rw [if_pos hfull]
  · intro m hm
    unfold createCommandQueue
    rw [if_pos hm]

/-- Witness for C2 with capacity `n = 2` over `Nat` commands. -/
theorem commandQueue_capacity_witness :
    (0 < 2 ∧ ([10, 20] : List Nat).length = 2) ∧
    ((∃ q : CommandQueue Nat, createCommandQueue Nat ((2 : Nat) : ℚ) = .ok q ∧
      ∃ q' : CommandQueue Nat, enqueueAll q [10, 20] = .ok q' ∧
        q'.queue = [10, 20] ∧
        enqueue q' 30 = .error queueFullError ∧
        ∃ q'' : CommandQueue Nat, enqueue (dequeue q').2 40 = .ok (q'', 2) ∧
          enqueue q'' 30 = .error queueFullError) ∧
    (∀ m : ℚ, ¬ m.isInt ∨ m ≤ 0 →
      createCommandQueue Nat m = .error (.rangeError "maxSize must be a positive integer"))) :=
  ⟨⟨by decide, by decide⟩, commandQueue_capacity Nat 2 (by decide) [10, 20] (by decide) 30 40⟩

/-! ## Retry policy (exponential backoff + jitter, `utils/retry.ts`)

JavaScript numbers are modelled as `ℚ` (every value reachable here is
finite, so `Number.isFinite` validation is the non-positivity check).
The `Math.random()` draw feeding the jitter factor is a parameter
`rand ∈ [0, 1)`. -/

/-- `calculateDelay`: exponential backoff `baseMs * 2^(attempt-1)` capped at
`maxMs`; with jitter enabled the capped delay is scaled by
`0.8 + rand * 0.4`; the result is `Math.floor`ed. -/
def calculateDelay (attempt : Nat) (baseMs maxMs : ℚ) (jitter : Bool) (rand : ℚ) : ℤ :=
  let exponentialDelay := baseMs * 2 ^ (attempt - 1)
  let delay := min exponentialDelay maxMs
  let jittered := if jitter then delay * (0.8 + rand * 0.4) else delay
  jittered.floor

/-- One retry trace: the final outcome, how many times the operation was
invoked, and the sleeps performed between attempts (in order). -/
structure RetryTrace (ε α : Type) where
  result : Except ε α
  calls : Nat
  delays : List ℤ

/-- The retry loop of `executeWithRetry`/`executeSingleAttempt`: the
operation runs at attempts `attempt, attempt+1, …` strictly in sequence
(`op a` is the outcome of the `a`-th invocation); `rem` is the number of
attempts still allowed after the current one.  A failure that is not the
final attempt computes one sleep; the final failure is returned as the
last-seen error, un-transformed and with no sleep after it. -/
def retryGo {ε α : Type} (op : Nat → Except ε α) (delayOf : Nat → ℤ) :
    Nat → Nat → RetryTrace ε α
  | attempt, 0 =>
    match op attempt with
    | .ok v => { result := .ok v, calls := 1, delays := [] }
    | .error e => { result := .error e, calls := 1, delays := [] }
  | attempt, rem + 1 =>
    match op attempt with
    | .ok v => { result := .ok v, calls := 1, delays := [] }
    | .error _ =>
      let d := delayOf attempt
      let rest := retryGo op delayOf (attempt + 1) rem
      { result := rest.result, calls := rest.calls + 1, delays := d :: rest.delays }

/-- `executeWithRetry`: attempts `1 .. maxAttempts`. -/
def executeWithRetry {ε α : Type} (op : Nat → Except ε α) (delayOf : Nat → ℤ)
    (maxAttempts : Nat) : RetryTrace ε α :=
  retryGo op delayOf 1 (maxAttempts - 1)

/-- `validateRetryParams`: fails fast on a negative or non-integer retry
count and on non-positive delay bounds. -/
def validateRetryParams (retries baseMs maxMs : ℚ) : Except JSError Unit :=
  if retries < 0 ∨ ¬ retries.isInt then
    .error (.rangeError "retries must be a non-negative integer")
  else if baseMs ≤ 0 then
    .error (.rangeError "baseMs must be a positive finite number")
  else if maxMs ≤ 0 then
    .error (.rangeError "maxMs must be a positive finite number")
  else .ok ()

/-- `withRetry(op, opts)`: validate, then run `retries + 1` attempts.
`rand a` is the `Math.random()` draw used for the sleep after attempt `a`. -/
def withRetry {ε α : Type} (op : Nat → Except ε α) (retries baseMs maxMs : ℚ)
    (jitter : Bool) (rand : Nat → ℚ) : Except JSError (RetryTrace ε α) :=
  match validateRetryParams retries baseMs maxMs with
  | .error e => .error e
  | .ok _ =>
    let maxAttempts := retries.num.toNat + 1
    .ok (executeWithRetry op
      (fun a => calculateDelay a baseMs maxMs jitter (rand a)) maxAttempts)

theorem retryGo_alwaysFails {ε α : Type} (err : Nat → ε) (delayOf : Nat → ℤ)
    (attempt rem : Nat) :
    retryGo (fun a => (Except.error (err a) : Except ε α)) delayOf attempt rem =
      { result := Except.error (err (attempt + rem)), calls := rem + 1,
        delays := (List.range rem).map (fun i => delayOf (attempt + i)) } := by
  induction rem generalizing attempt with
  | zero => simp [retryGo]
  | succ n ih =>
    simp only [retryGo, ih (attempt + 1), List.range_succ_eq_map, List.map_cons,
      List.map_map]
    refine congrArg₂ (fun r d => RetryTrace.mk r (n + 1 + 1) d) ?_ ?_
    · have : attempt + 1 + n = attempt + (n + 1) := by omega
      rw [this]
    · simp only [Nat.add_zero, List.cons.injEq, true_and]
      apply List.map_congr_left
      intro i _
      simp only [Function.comp_apply]
      have : attempt + 1 + i = attempt + (i + 1) := by omega
      rw [this]

/-- **C3.** For every non-negative integer `r` and operation that fails at
every invocation, `withRetry(op, {retries: r})` (with the default delay
bounds) invokes the operation exactly `r + 1` times, strictly in sequence,
and finally rejects with exactly the error of the last invocation,
un-transformed; `retries = 0` means one single attempt, and no sleep
follows the final attempt (exactly `r` sleeps occur in total). -/
theorem withRetry_alwaysFails (ε α : Type) (r : Nat) (err : Nat → ε)
    (jitter : Bool) (rand : Nat → ℚ) :
    ∃ tr : RetryTrace ε α,
      withRetry (fun a => (Except.error (err a) : Except ε α)) (r : ℚ) 100 5000 jitter rand
          = .ok tr ∧
        tr.result = Except.error (err (r + 1)) ∧
        tr.calls = r + 1 ∧
        tr.delays.length = r := by
  have hval : validateRetryParams (r : ℚ) 100 5000 = .ok () := by
    have h0 : ¬ ((r : ℚ) < 0 ∨ ¬ ((r : ℚ)).isInt = true) := by
      push_neg
      refine ⟨by positivity, by simp [Rat.isInt]⟩
    unfold validateRetryParams
    rw [if_neg h0, if_neg (by norm_num), if_neg (by norm_num)]
  have hrun : executeWithRetry (fun a => (Except.error (err a) : Except ε α))
      (fun a => calculateDelay a 100 5000 jitter (rand a)) (((r : ℚ)).num.toNat + 1) =
      { result := Except.error (err (r + 1)), calls := r + 1,
        delays := (List.range r).map
          (fun i => calculateDelay (1 + i) 100 5000 jitter (rand (1 + i))) } := by
    have hnum : ((r : ℚ)).num.toNat = r := by simp [Rat.num_natCast]
    unfold executeWithRetry
    rw [hnum, Nat.add_sub_cancel, retryGo_alwaysFails]
    rw [Nat.add_comm 1 r]
  refine ⟨RetryTrace.mk (Except.error (err (r + 1))) (r + 1)
      ((List.range r).map (fun i => calculateDelay (1 + i) 100 5000 jitter (rand (1 + i)))),
    ?_, rfl, rfl, by simp⟩
  unfold withRetry
  rw [hval, ← hrun]

theorem ratFloor_eq_intFloor (q : ℚ) : Rat.floor q = ⌊q⌋ := rfl

/-- **C4.** With jitter disabled, the delay computed after the `a`-th
failed attempt equals `⌊min (baseMs * 2^(a-1)) maxMs⌋`; with jitter
enabled the pre-floor delay is scaled by the factor `0.8 + rand * 0.4`,
which lies in `[0.8, 1.2]` for every `Math.random()` draw
`rand ∈ [0, 1)`; and for `baseMs = 100`, `maxMs = 300`, `retries = 5`,
jitter off, the delays computed across a full run of `withRetry` over an
always-failing operation are `[100, 200, 300, 300, 300]`. -/
theorem calculateDelay_correct (a : Nat) (baseMs maxMs rand : ℚ)
    (h0 : 0 ≤ rand) (h1 : rand < 1) :
    calculateDelay a baseMs maxMs false rand = ⌊min (baseMs * 2 ^ (a - 1)) maxMs⌋ ∧
    (calculateDelay a baseMs maxMs true rand
        = ⌊min (baseMs * 2 ^ (a - 1)) maxMs * (0.8 + rand * 0.4)⌋ ∧
      0.8 ≤ 0.8 + rand * 0.4 ∧ 0.8 + rand * 0.4 ≤ 1.2) ∧
    (∃ tr : RetryTrace Unit Unit,
      withRetry (fun _ => (Except.error () : Except Unit Unit)) 5 100 300 false (fun _ => 0)
          = .ok tr ∧
        tr.delays = [100, 200, 300, 300, 300]) := by
  refine ⟨by simp [calculateDelay, ratFloor_eq_intFloor], ⟨?_, ?_, ?_⟩, ?_⟩
  · simp [calculateDelay, ratFloor_eq_intFloor]
  · nlinarith
  · nlinarith
  · have hval : validateRetryParams 5 100 300 = .ok () := by
      unfold validateRetryParams
      rw [if_neg (by norm_num [Rat.isInt]), if_neg (by norm_num), if_neg (by norm_num)]
    have hnum : ((5 : ℚ)).num.toNat + 1 = 6 := by
      norm_num
      decide
    refine ⟨executeWithRetry (fun _ => (Except.error () : Except Unit Unit))
        (fun a => calculateDelay a 100 300 false 0) (((5 : ℚ)).num.toNat + 1), ?_, ?_⟩
    · unfold withRetry
      rw [hval]
    · unfold executeWithRetry
      rw [hnum]
      rw [show (6 - 1 : Nat) = 5 from rfl, retryGo_alwaysFails (fun _ => ())]
      simp only [List.range_succ, List.range_zero, List.nil_append, List.map_append,
        List.map_cons, List.map_nil]
      norm_num [calculateDelay, ratFloor_eq_intFloor]

/-- Witness for C4 at attempt `a = 2`, `baseMs = 100`, `maxMs = 300`,
`rand = 1/2`. -/
theorem calculateDelay_correct_witness :
    ((0 : ℚ) ≤ 1/2 ∧ (1/2 : ℚ) < 1) ∧
    (calculateDelay 2 100 300 false (1/2) = ⌊min ((100 : ℚ) * 2 ^ (2 - 1)) 300⌋ ∧
    (calculateDelay 2 100 300 true (1/2)
        = ⌊min ((100 : ℚ) * 2 ^ (2 - 1)) 300 * (0.8 + (1/2) * 0.4)⌋ ∧
      (0.8 : ℚ) ≤ 0.8 + (1/2) * 0.4 ∧ (0.8 : ℚ) + (1/2) * 0.4 ≤ 1.2) ∧
    (∃ tr : RetryTrace Unit Unit,
      withRetry (fun _ => (Except.error () : Except Unit Unit)) 5 100 300 false (fun _ => 0)
          = .ok tr ∧
        tr.delays = [100, 200, 300, 300, 300])) :=
  ⟨⟨by norm_num, by norm_num⟩,
    calculateDelay_correct 2 100 300 (1/2) (by norm_num) (by norm_num)⟩

/-! ## JavaScript string primitives

The string operations the adapters use, modelled over `List Char` so they
evaluate by kernel reduction.  `jsTrim` models `String.prototype.trim` on
the common whitespace set; `jsToLower` models `toLowerCase` (exact on
Basic Latin, the identity elsewhere, which never changes the slugs or
topics produced below); `jsSplit` models `split` with a one-character
separator (empty fields are kept); `jsDrop` models `slice(n)`. -/

/-- `s.trim()`: drop whitespace from both ends. -/
def jsTrim (s : String) : String :=
  ((s.toList.dropWhile Char.isWhitespace).rdropWhile Char.isWhitespace).asString

/-- `s.toLowerCase()`. -/
def jsToLower (s : String) : String := (s.toList.map Char.toLower).asString

/-- `s.split(sep)` for a one-character separator. -/
def jsSplit (s : String) (sep : Char) : List String :=
  (s.toList.splitOn sep).map List.asString

/-- `s.startsWith(pre)`. -/
def jsStartsWith (s pre : String) : Bool := List.isPrefixOf pre.toList s.toList

/-- `s.slice(n)` / `s.substring(n)`. -/
def jsDrop (s : String) (n : Nat) : String := (s.toList.drop n).asString

/-- `s.length`. -/
def jsLength (s : String) : Nat := s.toList.length

/-! ## MQTT wildcard topic matching (`mqtt-client.ts`) -/

/-- `matchTopic(pattern, topic)`: exact match; else a trailing-`#` pattern
matches when each preceding level is `+` or equals the corresponding topic
level (an out-of-range topic level, `undefined` in JavaScript, matches
only `+`) and the topic is at least as deep; else the level counts must be
equal and each level must be `+` or equal. -/
def matchTopic (pattern topic : String) : Bool :=
  if pattern = topic then true
  else
    let patternLevels := jsSplit pattern '/'
    let topicLevels := jsSplit topic '/'
    if patternLevels.getLast? = some "#" then
      ((List.range (patternLevels.length - 1)).all fun i =>
        patternLevels[i]? == some "+" || patternLevels[i]? == topicLevels[i]?)
      && decide (topicLevels.length ≥ patternLevels.length - 1)
    else if patternLevels.length ≠ topicLevels.length then false
    else (List.range patternLevels.length).all fun i =>
      patternLevels[i]? == some "+" || patternLevels[i]? == topicLevels[i]?

/-- The matching rules exactly as the specification states them. -/
def matchTopicSpec (pattern topic : String) : Prop :=
  pattern = topic ∨
  (let ps := jsSplit pattern '/'
   let ts := jsSplit topic '/'
   (ps.getLast? = some "#" ∧
     (∀ i < ps.length - 1, ps[i]? = some "+" ∨ ps[i]? = ts[i]?) ∧
     ps.length - 1 ≤ ts.length) ∨
   (ps.getLast? ≠ some "#" ∧ ps.length = ts.length ∧
     ∀ i < ps.length, ps[i]? = some "+" ∨ ps[i]? = ts[i]?))

/-- **C5.** `matchTopic` returns `true` exactly under the specification's
rules (equality; or a trailing `#` with matching preceding segments and
enough topic depth; or equal segment counts with `+`-or-equal segments),
and the specification's concrete examples hold: `devices/+/state` matches
`devices/lamp-1/state` but not `devices/a/b/state`, and `zigbee2mqtt/#`
matches `zigbee2mqtt/floor1/lamp/state`. -/
theorem matchTopic_correct :
    (∀ pattern topic, matchTopic pattern topic = true ↔ matchTopicSpec pattern topic) ∧
    matchTopic "devices/+/state" "devices/lamp-1/state" = true ∧
    matchTopic "devices/+/state" "devices/a/b/state" = false ∧
    matchTopic "zigbee2mqtt/#" "zigbee2mqtt/floor1/lamp/state" = true := by
  refine ⟨?_, by decide, by decide, by decide⟩
  intro pattern topic
  unfold matchTopic matchTopicSpec
  by_cases hpt : pattern = topic
  · simp [hpt]
  · rw [if_neg hpt]
    simp only [hpt, false_or]
    by_cases hhash : (jsSplit pattern '/').getLast? = some "#"
    · rw [if_pos hhash]
      simp [hhash, List.all_eq_true, List.mem_range]
    · rw [if_neg hhash]
      by_cases hlen : (jsSplit pattern '/').length = (jsSplit topic '/').length
      · rw [if_neg (by simp [hlen])]
        simp [hhash, hlen, List.all_eq_true, List.mem_range]
      · rw [if_pos (by simp [hlen])]
        simp [hhash, hlen]

/-! ## MQTT topic-to-device-id mapping (`src/adapters/mqtt/mqtt-adapter.ts`) -/

/-- `base.trim().replace(/\/+$/, '')`: drop every trailing `/`. -/
def stripTrailingSlashes (s : String) : String :=
  ((s.toList.reverse.dropWhile (fun c => c == '/')).reverse).asString

/-- `extractDeviceIdFromTopic(remainder)`: a device id only when the
remainder has at least two `/`-separated parts, the last is `state`, and
the second-to-last is non-empty. -/
def extractDeviceIdFromTopic (remainder : String) : Option String :=
  let parts := jsSplit remainder '/'
  if parts.length < 2 ∨ parts.getLast? ≠ some "state" then none
  else
    let deviceId := parts.getD (parts.length - 2) ""
    if jsLength deviceId = 0 then none else some deviceId

/-- `mapTopicToDeviceId(base, topic)`: validate both inputs non-blank,
trim them, strip trailing slashes from the base, require the topic to
start with `base + "/"`, and extract the device id from the remainder. -/
def mapTopicToDeviceId (base topic : String) : Except JSError (Option String) :=
  if jsLength (jsTrim base) = 0 then
    .error (.typeError "base must be a non-empty string")
  else if jsLength (jsTrim topic) = 0 then
    .error (.typeError "topic must be a non-empty string")
  else
    let normalizedBase := stripTrailingSlashes (jsTrim base)
    let normalizedTopic := jsTrim topic
    let pre := normalizedBase ++ "/"
    if jsStartsWith normalizedTopic pre then
      .ok (extractDeviceIdFromTopic (jsDrop normalizedTopic (jsLength pre)))
    else .ok none

/-- The mapping exactly as the claim states it: strip trailing slashes
from the base, require the `base + "/"` prefix, and return the
second-to-last segment of the remainder exactly when the remainder has at
least two segments, ends in `state`, and the id is non-empty — with no
trimming of either input. -/
def mapTopicToDeviceIdSpec (base topic : String) : Option String :=
  let strippedBase := stripTrailingSlashes base
  let pre := strippedBase ++ "/"
  if jsStartsWith topic pre then
    let parts := jsSplit (jsDrop topic (jsLength pre)) '/'
    if 2 ≤ parts.length ∧ parts.getLast? = some "state" ∧
        jsLength (parts.getD (parts.length - 2) "") ≠ 0 then
      some (parts.getD (parts.length - 2) "")
    else none
  else none

/-- Counterexample to **C6** as stated: the code trims surrounding
whitespace from the base (and the topic) before matching, which the
claim's description omits.  For `base = " zigbee2mqtt"` (leading space)
and `topic = "zigbee2mqtt/lamp/state"`, the code returns `"lamp"
while the claim's rules (no trimming, so the required prefix is
`" zigbee2mqtt/"`) return no match. -/
theorem mapTopicToDeviceId_cex :
    mapTopicToDeviceId " zigbee2mqtt" "zigbee2mqtt/lamp/state" = .ok (some "lamp") ∧
    mapTopicToDeviceIdSpec " zigbee2mqtt" "zigbee2mqtt/lamp/state" = none := by
  constructor
  · rfl
  · decide

/-- **C6 (amended).** After first trimming surrounding whitespace from
both the base and the topic, `mapTopicToDeviceId` behaves exactly as the
claim describes: strip trailing slashes from the (trimmed) base, require
the topic to start with it followed by `/`, and return the second-to-last
segment of the remainder exactly when the remainder has at least two
segments, its last segment is `state` and the id is non-empty — every
other shape yields `null`, not an error; and the concrete examples hold. -/
theorem mapTopicToDeviceId_amended (base topic : String)
    (hb : jsLength (jsTrim base) ≠ 0) (ht : jsLength (jsTrim topic) ≠ 0) :
    mapTopicToDeviceId base topic
        = .ok (mapTopicToDeviceIdSpec (jsTrim base) (jsTrim topic)) ∧
    mapTopicToDeviceId "zigbee2mqtt" "zigbee2mqtt/lamp/state" = .ok (some "lamp") ∧
    mapTopicToDeviceId "zigbee2mqtt" "zigbee2mqtt/lamp/config" = .ok none := by
  refine ⟨?_, rfl, rfl⟩
  unfold mapTopicToDeviceId mapTopicToDeviceIdSpec extractDeviceIdFromTopic
  rw [if_neg hb, if_neg ht]
  by_cases hs : jsStartsWith (jsTrim topic) (stripTrailingSlashes (jsTrim base) ++ "/")
  · rw [if_pos hs, if_pos hs]
    congr 1
    set parts := jsSplit (jsDrop (jsTrim topic)
      (jsLength (stripTrailingSlashes (jsTrim base) ++ "/"))) '/' with hparts
    by_cases h2 : parts.length < 2 ∨ parts.getLast? ≠ some "state"
    · rw [if_pos h2, if_neg]
      push_neg at h2 ⊢
      intro hlen hlast
      rcases h2 with hlt | hne
      · omega
      · exact absurd hlast hne
    · rw [if_neg h2]
      push_neg at h2
      by_cases hid : jsLength (parts.getD (parts.length - 2) "") = 0
      · rw [if_pos hid, if_neg]
        push_neg
        intro _ _
        exact hid
      · rw [if_neg hid, if_pos ⟨h2.1, h2.2, hid⟩]
  · rw [if_neg hs, if_neg hs]

/-- Witness for the amended C6 at `base = "zigbee2mqtt"`,
`topic = "zigbee2mqtt/lamp/state"`. -/
theorem mapTopicToDeviceId_amended_witness :
    (jsLength (jsTrim "zigbee2mqtt") ≠ 0 ∧
      jsLength (jsTrim "zigbee2mqtt/lamp/state") ≠ 0) ∧
    (mapTopicToDeviceId "zigbee2mqtt" "zigbee2mqtt/lamp/state"
        = .ok (mapTopicToDeviceIdSpec (jsTrim "zigbee2mqtt")
            (jsTrim "zigbee2mqtt/lamp/state")) ∧
    mapTopicToDeviceId "zigbee2mqtt" "zigbee2mqtt/lamp/state" = .ok (some "lamp") ∧
    mapTopicToDeviceId "zigbee2mqtt" "zigbee2mqtt/lamp/config" = .ok none) :=
  ⟨⟨by decide, by decide⟩,
    mapTopicToDeviceId_amended "zigbee2mqtt" "zigbee2mqtt/lamp/state"
      (by decide) (by decide)⟩

/-! ## Adapter contract check and registry
(`src/domain/adapter-interface.ts`, `src/core/adapter-registry.ts`)

A candidate adapter is a JavaScript runtime value: `none` models
`null`/`undefined`/non-objects, `some obj` a plain object whose
properties are strings, functions (carrying their declared parameter
count, JavaScript's `fn.length`), or other values. -/

/-- An observable property value on a candidate adapter object. -/
inductive JSProp where
  | str : String → JSProp
  | func : Nat → JSProp
  | other : JSProp
  | absentProp : JSProp
deriving DecidableEq, Repr

/-- A candidate adapter runtime value. -/
abbrev AdapterCandidate := Option (List (String × JSProp))

/-- `obj[key]` (an absent property reads as `undefined`). -/
def getProp (obj : List (String × JSProp)) (k : String) : JSProp :=
  match obj.find? (fun kv => kv.1 == k) with
  | some kv => kv.2
  | none => .absentProp

/-- `key in obj`. -/
def hasProp (obj : List (String × JSProp)) (k : String) : Bool :=
  obj.any (fun kv => kv.1 == k)

/-- `validateAdapterName`: `name` must be a string with non-blank trim. -/
def validateAdapterName (obj : List (String × JSProp)) : Except JSError Unit :=
  match getProp obj "name" with
  | .str s =>
    if jsLength (jsTrim s) = 0 then
      .error (.typeError "Adapter must have a non-empty name property")
    else .ok ()
  | _ => .error (.typeError "Adapter must have a non-empty name property")

/-- The six required adapter methods. -/
def REQUIRED_METHODS : List String :=
  ["initialize", "start", "stop", "getDeviceState", "executeCommand",
    "onDeviceStateChange"]

/-- `validateRequiredMethods`: each required method must be a function. -/
def validateRequiredMethods (obj : List (String × JSProp)) : Except JSError Unit :=
  if REQUIRED_METHODS.all (fun m =>
      match getProp obj m with
      | .func _ => true
      | _ => false) then .ok ()
  else .error (.typeError "Adapter must implement the required methods")

/-- `validateExecuteCommandParams`: `executeCommand.length` must be 2. -/
def validateExecuteCommandParams (obj : List (String × JSProp)) : Except JSError Unit :=
  match getProp obj "executeCommand" with
  | .func n =>
    if n ≠ 2 then
      .error (.typeError "executeCommand must accept exactly 2 parameters")
    else .ok ()
  | _ => .ok ()

/-- `validateOptionalScanDevices`: if present it must be a function. -/
def validateOptionalScanDevices (obj : List (String × JSProp)) : Except JSError Unit :=
  if hasProp obj "scanDevices" then
    match getProp obj "scanDevices" with
    | .func _ => .ok ()
    | _ => .error (.typeError "scanDevices, if present, must be a function")
  else .ok ()

/-- `ensureAdapterImplements`: the duck-typed contract check, in source
order. -/
def ensureAdapterImplements (adapter : AdapterCandidate) : Except JSError Unit :=
  match adapter with
  | none => .error (.typeError "Adapter must be a non-null object")
  | some obj =>
    match validateAdapterName obj with
    | .error e => .error e
    | .ok _ =>
      match validateRequiredMethods obj with
      | .error e => .error e
      | .ok _ =>
        match validateExecuteCommandParams obj with
        | .error e => .error e
        | .ok _ => validateOptionalScanDevices obj

/-- The conflict error of a duplicate registration. -/
def duplicateAdapterError : JSError := .error "Adapter is already registered"

/-- `register(name, adapter)` on the registry's insertion-ordered map:
blank names are a `TypeError`; a name already present is a conflict error
raised before the contract check; otherwise validate and append. -/
def register (reg : List (String × AdapterCandidate)) (name : String)
    (adapter : AdapterCandidate) :
    Except JSError (List (String × AdapterCandidate)) :=
  if jsLength (jsTrim name) = 0 then
    .error (.typeError "Adapter name must be a non-empty string")
  else if reg.any (fun kv => kv.1 == name) then .error duplicateAdapterError
  else
    match ensureAdapterImplements adapter with
    | .error e => .error e
    | .ok _ => .ok (reg ++ [(name, adapter)])

/-- `get(name)`. -/
def registryGetAdapter (reg : List (String × AdapterCandidate)) (name : String) :
    Option AdapterCandidate :=
  (reg.find? (fun kv => kv.1 == name)).map Prod.snd

/-- `list()`: names in insertion order. -/
def registryList (reg : List (String × AdapterCandidate)) : List String :=
  reg.map Prod.fst

theorem find?_append_of_not_any {α : Type} (p : α → Bool) (l₁ l₂ : List α)
    (h : l₁.any p = false) : (l₁ ++ l₂).find? p = l₂.find? p := by
  induction l₁ with
  | nil => simp
  | cons x xs ih =>
    simp only [List.any_cons, Bool.or_eq_false_iff] at h
    simp only [List.cons_append, List.find?_cons, h.1]
    exact ih h.2

/-- **C7.** After a successful `register(name, a)`, a second `register`
with the same `name` — with any candidate `b`, valid or not — fails with
the conflict error and leaves the registry unchanged: `get(name)` still
returns the originally registered adapter, and the name list (set and
insertion order) is exactly the old one extended by `name` at the first
call only. -/
theorem register_duplicate_conflict (reg reg' : List (String × AdapterCandidate))
    (name : String) (a b : AdapterCandidate)
    (h : register reg name a = .ok reg') :
    register reg' name b = .error duplicateAdapterError ∧
    registryGetAdapter reg' name = some a ∧
    registryList reg' = registryList reg ++ [name] := by
  unfold register at h
  by_cases hname : jsLength (jsTrim name) = 0
  · rw [if_pos hname] at h
    exact absurd h (by simp)
  · rw [if_neg hname] at h
    by_cases hpres : reg.any (fun kv => kv.1 == name) = true
    · rw [if_pos hpres] at h
      exact absurd h (by simp)
    · rw [if_neg hpres] at h
      cases hens : ensureAdapterImplements a with
      | error e => rw [hens] at h; exact absurd h (by simp)
      | ok u =>
        rw [hens] at h
        have hreg' : reg' = reg ++ [(name, a)] := by
          cases h; rfl
        subst hreg'
        have hfalse : reg.any (fun kv => kv.1 == name) = false :=
          Bool.eq_false_iff.mpr hpres
        refine ⟨?_, ?_, by simp [registryList]⟩
        · unfold register
          rw [if_neg hname, if_pos ?_]
          simp
        · unfold registryGetAdapter
          rw [find?_append_of_not_any _ _ _ hfalse]
          simp

/-- A contract-satisfying adapter object. -/
def validAdapterObj : List (String × JSProp) :=
  [("name", .str "mqtt"), ("initialize", .func 1), ("start", .func 0),
    ("stop", .func 0), ("getDeviceState", .func 1), ("executeCommand", .func 2),
    ("onDeviceStateChange", .func 1)]

/-- Witness for C7: a first registration of `"mqtt"` succeeds; the second
one (even with the invalid candidate `none`) hits the conflict error and
the registry still maps `"mqtt"` to the original adapter. -/
theorem register_duplicate_conflict_witness :
    register [] "mqtt" (some validAdapterObj) = .ok [("mqtt", some validAdapterObj)] ∧
    (register [("mqtt", some validAdapterObj)] "mqtt" none
        = .error duplicateAdapterError ∧
      registryGetAdapter [("mqtt", some validAdapterObj)] "mqtt"
        = some (some validAdapterObj) ∧
      registryList [("mqtt", some validAdapterObj)] = registryList [] ++ ["mqtt"]) :=
  ⟨rfl, register_duplicate_conflict [] _ "mqtt" (some validAdapterObj) none rfl⟩

/-! ## Resource-URI slug normalisation
(`src/utils/helpers.ts` `toKebabCase`, `src/utils/validators.ts`
`assertNonEmptyString`, `src/domain/device.ts` `buildDeviceResourceUri`) -/

/-- The character class kept by `toKebabCase`'s regex
`[^a-z0-9一-鿿]`: lowercase ASCII letters, ASCII digits, and CJK
ideographs `U+4E00`–`U+9FFF`. -/
def isKebabKept (c : Char) : Bool :=
  decide (97 ≤ c.toNat ∧ c.toNat ≤ 122) || decide (48 ≤ c.toNat ∧ c.toNat ≤ 57)
    || decide (19968 ≤ c.toNat ∧ c.toNat ≤ 40959)

/-- An ASCII alphanumeric character (the claim's "alphanumeric"). -/
def jsIsAlphanumeric (c : Char) : Bool :=
  decide (65 ≤ c.toNat ∧ c.toNat ≤ 90) || decide (97 ≤ c.toNat ∧ c.toNat ≤ 122)
    || decide (48 ≤ c.toNat ∧ c.toNat ≤ 57)

/-- The dash-run replacement (regex `-+` with `-`): collapse each run of
dashes to a single dash. -/
def collapseDashes : List Char → List Char
  | [] => []
  | [c] => [c]
  | c :: d :: rest =>
    if c = '-' ∧ d = '-' then collapseDashes (d :: rest)
    else c :: collapseDashes (d :: rest)

/-- Drop one leading dash (the `^-` alternative of the edge-dash regex). -/
def stripLeadingDash : List Char → List Char
  | '-' :: rest => rest
  | l => l

/-- The edge-dash replacement (global regex alternation of `^-` and `-$`
with the empty string): drop one leading and one trailing dash. -/
def stripEdgeDashes (l : List Char) : List Char :=
  ((stripLeadingDash l).reverse |> stripLeadingDash).reverse

/-- `toKebabCase(input)`: trim, lower-case, dash every character outside
`[a-z0-9一-鿿]`, collapse dash runs, strip edge dashes. -/
def toKebabCase (input : String) : String :=
  let dashed := (jsToLower (jsTrim input)).toList.map
    (fun c => if isKebabKept c then c else '-')
  (stripEdgeDashes (collapseDashes dashed)).asString

/-- The slug exactly as the claim words it: trimmed, lower-cased, every
run of non-alphanumeric characters replaced by a single `-`, edge dashes
removed. -/
def slugSpec (s : String) : String :=
  let dashed := (jsToLower (jsTrim s)).toList.map
    (fun c => if jsIsAlphanumeric c then c else '-')
  (stripEdgeDashes (collapseDashes dashed)).asString

/-- The claim's slug amended by the counterexample: CJK ideographs
(`U+4E00`–`U+9FFF`) are preserved alongside ASCII alphanumerics. -/
def slugAmended (s : String) : String :=
  let dashed := (jsToLower (jsTrim s)).toList.map
    (fun c => if jsIsAlphanumeric c || decide (19968 ≤ c.toNat ∧ c.toNat ≤ 40959)
      then c else '-')
  (stripEdgeDashes (collapseDashes dashed)).asString

/-- `assertNonEmptyString(name, value, maxLen = 256)`: returns the
*trimmed* value; `TypeError` when empty or blank, `RangeError` when the
trimmed value exceeds `maxLen`. -/
def assertNonEmptyString (value : String) (maxLen : Nat) : Except JSError String :=
  if jsLength value = 0 then .error (.typeError "cannot be empty")
  else
    let trimmed := jsTrim value
    if jsLength trimmed = 0 then .error (.typeError "must be non-empty")
    else if maxLen < jsLength trimmed then .error (.rangeError "exceeds maximum length")
    else .ok trimmed

/-- `buildDeviceResourceUri({location, friendlyName})`. -/
def buildDeviceResourceUri (location friendlyName : String) : Except JSError String :=
  match assertNonEmptyString location 256 with
  | .error e => .error e
  | .ok loc =>
    match assertNonEmptyString friendlyName 256 with
    | .error e => .error e
    | .ok nm =>
      .ok ("iot://home/" ++ toKebabCase loc ++ "/" ++ toKebabCase nm ++ "/state")

theorem toList_asString (l : List Char) : l.asString.toList = l := rfl

theorem trimList_idem (l : List Char) :
    ((((l.dropWhile Char.isWhitespace).rdropWhile
        Char.isWhitespace).dropWhile Char.isWhitespace).rdropWhile Char.isWhitespace)
      = (l.dropWhile Char.isWhitespace).rdropWhile Char.isWhitespace := by
  have hm : List.dropWhile Char.isWhitespace (l.dropWhile Char.isWhitespace)
      = l.dropWhile Char.isWhitespace := List.dropWhile_idempotent _ _
  have h₂ : List.dropWhile Char.isWhitespace
      ((l.dropWhile Char.isWhitespace).rdropWhile Char.isWhitespace)
      = (l.dropWhile Char.isWhitespace).rdropWhile Char.isWhitespace := by
    cases hr : (l.dropWhile Char.isWhitespace).rdropWhile Char.isWhitespace with
    | nil => rfl
    | cons b bs =>
      obtain ⟨t, ht⟩ :=
        List.rdropWhile_prefix Char.isWhitespace (l := l.dropWhile Char.isWhitespace)
      rw [hr] at ht
      have hb : Char.isWhitespace b = false := by
        by_contra hws
        have hwsb : Char.isWhitespace b = true := by
          revert hws; cases Char.isWhitespace b <;> simp
        rw [← ht] at hm
        simp only [List.cons_append, List.dropWhile_cons, hwsb, if_true] at hm
        have hlen := congrArg List.length hm
        simp only [List.length_cons] at hlen
        have hle := (List.dropWhile_sublist (l := bs ++ t) Char.isWhitespace).length_le
        omega
      simp [List.dropWhile_cons, hb]
  rw [h₂, List.rdropWhile_idempotent]

theorem jsTrim_idem (s : String) : jsTrim (jsTrim s) = jsTrim s := by
  unfold jsTrim
  rw [toList_asString, trimList_idem]

theorem jsLength_zero_of_toList_nil (s : String) (h : s.toList = []) :
    jsLength (jsTrim s) = 0 := by
  unfold jsLength jsTrim
  rw [h]
  rfl

theorem toLower_not_upper (c : Char) :
    ¬(65 ≤ (Char.toLower c).toNat ∧ (Char.toLower c).toNat ≤ 90) := by
  unfold Char.toLower
  by_cases h : Char.toNat c ≥ 65 ∧ Char.toNat c ≤ 90
  · rw [if_pos h]
    obtain ⟨h1, h2⟩ := h
    have hval : (Char.ofNat (Char.toNat c + 32)).toNat = Char.toNat c + 32 := by
      generalize Char.toNat c = n at h1 h2
      interval_cases n <;> decide
    omega
  · rw [if_neg h]
    exact h

theorem kept_agree (c : Char) :
    isKebabKept (Char.toLower c)
      = (jsIsAlphanumeric (Char.toLower c)
          || decide (19968 ≤ (Char.toLower c).toNat ∧ (Char.toLower c).toNat ≤ 40959)) := by
  have hd := toLower_not_upper c
  refine Bool.eq_iff_iff.mpr ?_
  simp only [isKebabKept, jsIsAlphanumeric, Bool.or_eq_true, decide_eq_true_eq]
  omega

theorem toKebabCase_eq_slugAmended (s : String) : toKebabCase s = slugAmended s := by
  unfold toKebabCase slugAmended
  have hmap : (jsToLower (jsTrim s)).toList.map
      (fun c => if isKebabKept c then c else '-')
      = (jsToLower (jsTrim s)).toList.map
        (fun c => if jsIsAlphanumeric c || decide (19968 ≤ c.toNat ∧ c.toNat ≤ 40959)
          then c else '-') := by
    unfold jsToLower
    rw [toList_asString, List.map_map, List.map_map]
    apply List.map_congr_left
    intro x _
    simp only [Function.comp_apply, kept_agree]
  rw [hmap]

theorem toKebabCase_jsTrim (s : String) : toKebabCase (jsTrim s) = toKebabCase s := by
  unfold toKebabCase
  rw [jsTrim_idem]

set_option maxRecDepth 8192 in
/-- Counterexample to **C8** as stated: `toKebabCase` *keeps* CJK
ideographs (`U+4E00`–`U+9FFF`), while the claim dashes every
non-alphanumeric character; and the validator caps the trimmed inputs at
256 characters with a `RangeError`, while the claim promises a URI for
every non-empty input.  At `location = "客厅"`, `friendlyName = "Lamp"`
the code produces `iot://home/客厅/lamp/state`, but the claim's slug of
`"客厅"` is empty, giving `iot://home//lamp/state`. -/
theorem buildDeviceResourceUri_cex :
    buildDeviceResourceUri "客厅" "Lamp" = .ok "iot://home/客厅/lamp/state" ∧
    "iot://home/" ++ slugSpec "客厅" ++ "/" ++ slugSpec "Lamp" ++ "/state"
      = "iot://home//lamp/state" ∧
    buildDeviceResourceUri (List.replicate 257 'a').asString "Lamp"
      = .error (.rangeError "exceeds maximum length") :=
  ⟨rfl, by decide, rfl⟩

/-- **C8 (amended).** For every `location` and `friendlyName` whose
trimmed forms are non-empty and at most 256 characters,
`buildDeviceResourceUri` returns exactly
`iot://home/<location-slug>/<name-slug>/state`, where each slug is the
input trimmed, lower-cased, with every run of characters other than ASCII
alphanumerics and CJK ideographs (`U+4E00`–`U+9FFF`) replaced by a single
`-`, and leading/trailing `-` removed; the claim's concrete example
holds. -/
theorem buildDeviceResourceUri_amended (location friendlyName : String)
    (hl : jsLength (jsTrim location) ≠ 0) (hf : jsLength (jsTrim friendlyName) ≠ 0)
    (hl2 : jsLength (jsTrim location) ≤ 256) (hf2 : jsLength (jsTrim friendlyName) ≤ 256) :
    buildDeviceResourceUri location friendlyName
        = .ok ("iot://home/" ++ slugAmended location ++ "/"
            ++ slugAmended friendlyName ++ "/state") ∧
    buildDeviceResourceUri "Living-Room" "  MAIN  LIGHT "
      = .ok "iot://home/living-room/main-light/state" := by
  refine ⟨?_, rfl⟩
  have hl0 : jsLength location ≠ 0 := by
    intro h0
    exact hl (jsLength_zero_of_toList_nil location (List.length_eq_zero.mp h0))
  have hf0 : jsLength friendlyName ≠ 0 := by
    intro h0
    exact hf (jsLength_zero_of_toList_nil friendlyName (List.length_eq_zero.mp h0))
  unfold buildDeviceResourceUri assertNonEmptyString
  rw [if_neg hl0, if_neg hl, if_neg (not_lt.mpr hl2),
    if_neg hf0, if_neg hf, if_neg (not_lt.mpr hf2)]
  simp only
  rw [toKebabCase_jsTrim, toKebabCase_jsTrim,
    toKebabCase_eq_slugAmended, toKebabCase_eq_slugAmended]

/-- Witness for the amended C8 at `location = "Living-Room"`,
`friendlyName = "  MAIN  LIGHT "`. -/
theorem buildDeviceResourceUri_amended_witness :
    (jsLength (jsTrim "Living-Room") ≠ 0 ∧ jsLength (jsTrim "  MAIN  LIGHT ") ≠ 0 ∧
      jsLength (jsTrim "Living-Room") ≤ 256 ∧ jsLength (jsTrim "  MAIN  LIGHT ") ≤ 256) ∧
    buildDeviceResourceUri "Living-Room" "  MAIN  LIGHT "
        = .ok ("iot://home/" ++ slugAmended "Living-Room" ++ "/"
            ++ slugAmended "  MAIN  LIGHT " ++ "/state") :=
  ⟨⟨by decide, by decide, by decide, by decide⟩,
    (buildDeviceResourceUri_amended "Living-Room" "  MAIN  LIGHT "
      (by decide) (by decide) (by decide) (by decide)).1⟩

/-! ## MQTT client subscription restore (`mqtt-client.ts` listeners)

`setupClientListeners` wires the native client's events:
`once('connect')` runs the restore and resolves the connect promise on the
first connect only; `on('reconnect')` runs the restore on *every*
reconnect.  `restoreSubscriptions` issues one batched `subscribe` over
`Array.from(subscriptions.keys())` whenever the table is non-empty.
Handlers are irrelevant to the restore, so the subscription table is
modelled as its topic list in insertion order. -/

/-- The listener-visible client state. -/
structure MqttClientState where
  subscriptions : List String
  connectHandled : Bool
deriving DecidableEq, Repr

/-- A transport-level event observed by the installed listeners. -/
inductive TransportEvent where
  | connect
  | reconnect
deriving DecidableEq, Repr

/-- An externally observable action of the listeners. -/
inductive ClientAction where
  | subscribeBatch : List String → ClientAction
  | resolveConnect : ClientAction
deriving DecidableEq, Repr

/-- `restoreSubscriptions`: one batched subscribe of every held topic,
skipped when the table is empty. -/
def restoreSubscriptions (subs : List String) : List ClientAction :=
  if subs.length > 0 then [.subscribeBatch subs] else []

/-- One event dispatch through the listeners installed by
`setupClientListeners`. -/
def handleTransportEvent (s : MqttClientState) (e : TransportEvent) :
    MqttClientState × List ClientAction :=
  match e with
  | .connect =>
    if s.connectHandled then (s, [])
    else ({ s with connectHandled := true },
      restoreSubscriptions s.subscriptions ++ [.resolveConnect])
  | .reconnect => (s, restoreSubscriptions s.subscriptions)

/-- Dispatch a whole event trace, collecting the actions per event. -/
def runTransportEvents (s : MqttClientState) :
    List TransportEvent → List (List ClientAction)
  | [] => []
  | e :: es =>
    let step := handleTransportEvent s e
    step.2 :: runTransportEvents step.1 es

theorem handleTransportEvent_subscriptions (s : MqttClientState) (e : TransportEvent) :
    (handleTransportEvent s e).1.subscriptions = s.subscriptions := by
  cases e with
  | connect =>
    by_cases h : s.connectHandled <;> simp [handleTransportEvent, h]
  | reconnect => rfl

/-- **C9.** On *every* `reconnect` event in any event trace — regardless
of position, of how many connects or reconnects preceded it, and with no
caller intervention — the listeners emit exactly one batched subscribe
call carrying every topic currently held in the local subscription table
(which event dispatch never mutates). -/
theorem reconnect_restores_subscriptions (s : MqttClientState)
    (events : List TransportEvent) (i : Nat)
    (hi : events.get? i = some .reconnect) (hne : s.subscriptions ≠ []) :
    (runTransportEvents s events).get? i
      = some [ClientAction.subscribeBatch s.subscriptions] := by
  induction events generalizing s i with
  | nil => simp at hi
  | cons e es ih =>
    cases i with
    | zero =>
      simp only [List.get?_cons_zero, Option.some.injEq] at hi
      subst hi
      simp only [runTransportEvents, handleTransportEvent, List.get?_cons_zero,
        Option.some.injEq, restoreSubscriptions]
      rw [if_pos (by cases hsub : s.subscriptions with
        | nil => exact absurd hsub hne
        | cons a as => simp [hsub])]
    | succ j =>
      simp only [List.get?_cons_succ] at hi
      simp only [runTransportEvents, List.get?_cons_succ]
      have hsub := handleTransportEvent_subscriptions s e
      rw [← hsub] at hne ⊢
      exact ih _ j hi hne

/-- Witness for C9: with two held topics and the first connect long
handled, the third event — a reconnect — still emits the batched
re-subscribe of both topics. -/
theorem reconnect_restores_subscriptions_witness :
    (([TransportEvent.reconnect, .connect, .reconnect].get? 2
        = some TransportEvent.reconnect) ∧
      (MqttClientState.mk ["devices/+/state", "zigbee2mqtt/#"] true).subscriptions ≠ []) ∧
    (runTransportEvents (MqttClientState.mk ["devices/+/state", "zigbee2mqtt/#"] true)
        [TransportEvent.reconnect, .connect, .reconnect]).get? 2
      = some [ClientAction.subscribeBatch ["devices/+/state", "zigbee2mqtt/#"]] :=
  ⟨⟨by decide, by decide⟩,
    reconnect_restores_subscriptions
      (MqttClientState.mk ["devices/+/state", "zigbee2mqtt/#"] true)
      [TransportEvent.reconnect, .connect, .reconnect] 2 (by decide) (by decide)⟩

/-! ## Device manager registration (`src/core/device-manager.ts`) -/

/-- Device metadata (the `type` field is `deviceType` here). -/
structure DeviceMetadata where
  id : String
  friendlyName : String
  location : String
  deviceType : String
deriving DecidableEq, Repr

/-- `Map.set`: replace in place when the key exists, else append. -/
def mapSet {β : Type} (m : List (String × β)) (k : String) (v : β) :
    List (String × β) :=
  match m with
  | [] => [(k, v)]
  | (k', v') :: rest =>
    if k' = k then (k', v) :: rest else (k', v') :: mapSet rest k v

/-- `Map.get`. -/
def mapGet {β : Type} (m : List (String × β)) (k : String) : Option β :=
  (m.find? (fun kv => kv.1 == k)).map Prod.snd

/-- `DeviceManager.registerDevice(device)`: `TypeError` exactly when the
id is empty or whitespace-only, else `Map.set` — which silently replaces
an existing entry. -/
def registerDevice (devices : List (String × DeviceMetadata)) (d : DeviceMetadata) :
    Except JSError (List (String × DeviceMetadata)) :=
  if jsLength (jsTrim d.id) = 0 then
    .error (.typeError "Device id must be a non-empty string")
  else .ok (mapSet devices d.id d)

theorem mapGet_mapSet {β : Type} (m : List (String × β)) (k : String) (v : β) :
    mapGet (mapSet m k v) k = some v := by
  induction m with
  | nil => simp [mapGet, mapSet]
  | cons hd tl ih =>
    obtain ⟨a, b⟩ := hd
    by_cases hak : a = k
    · subst hak
      simp [mapGet, mapSet]
    · simp only [mapSet, if_neg hak, mapGet, List.find?_cons]
      have hbeq : (a == k) = false := by simpa using hak
      rw [hbeq]
      exact ih

/-- **C10.** Registering a device whose id is already registered
succeeds: it raises no error and silently replaces the stored metadata
for that id (unlike adapter registration, there is no conflict check);
and `registerDevice` fails — with a `TypeError` — exactly when the id
trims to the empty string. -/
theorem registerDevice_correct (devices : List (String × DeviceMetadata))
    (d0 d : DeviceMetadata)
    (hdup : mapGet devices d.id = some d0) (hid : jsLength (jsTrim d.id) ≠ 0) :
    (registerDevice devices d = .ok (mapSet devices d.id d) ∧
      mapGet (mapSet devices d.id d) d.id = some d) ∧
    ∀ (devs : List (String × DeviceMetadata)) (e : DeviceMetadata),
      (∃ err, registerDevice devs e = .error err) ↔ jsLength (jsTrim e.id) = 0 := by
  refine ⟨⟨?_, mapGet_mapSet devices d.id d⟩, ?_⟩
  · unfold registerDevice
    rw [if_neg hid]
  · intro devs e
    constructor
    · rintro ⟨err, herr⟩
      by_contra hne
      unfold registerDevice at herr
      rw [if_neg hne] at herr
      exact absurd herr (by simp)
    · intro h0
      refine ⟨.typeError "Device id must be a non-empty string", ?_⟩
      unfold registerDevice
      rw [if_pos h0]

/-- Witness for C10: re-registering id `lamp-1` replaces the stored
metadata without an error. -/
theorem registerDevice_correct_witness :
    (mapGet [("lamp-1", DeviceMetadata.mk "lamp-1" "Old lamp" "hall" "light")]
        (DeviceMetadata.mk "lamp-1" "New lamp" "den" "light").id
      = some (DeviceMetadata.mk "lamp-1" "Old lamp" "hall" "light") ∧
      jsLength (jsTrim (DeviceMetadata.mk "lamp-1" "New lamp" "den" "light").id) ≠ 0) ∧
    ((registerDevice [("lamp-1", DeviceMetadata.mk "lamp-1" "Old lamp" "hall" "light")]
          (DeviceMetadata.mk "lamp-1" "New lamp" "den" "light")
        = .ok (mapSet [("lamp-1", DeviceMetadata.mk "lamp-1" "Old lamp" "hall" "light")]
            "lamp-1" (DeviceMetadata.mk "lamp-1" "New lamp" "den" "light")) ∧
      mapGet (mapSet [("lamp-1", DeviceMetadata.mk "lamp-1" "Old lamp" "hall" "light")]
          "lamp-1" (DeviceMetadata.mk "lamp-1" "New lamp" "den" "light")) "lamp-1"
        = some (DeviceMetadata.mk "lamp-1" "New lamp" "den" "light")) ∧
    ∀ (devs : List (String × DeviceMetadata)) (e : DeviceMetadata),
      (∃ err, registerDevice devs e = .error err) ↔ jsLength (jsTrim e.id) = 0) :=
  ⟨⟨by decide, by decide⟩,
    registerDevice_correct [("lamp-1", DeviceMetadata.mk "lamp-1" "Old lamp" "hall" "light")]
      (DeviceMetadata.mk "lamp-1" "Old lamp" "hall" "light")
      (DeviceMetadata.mk "lamp-1" "New lamp" "den" "light") (by decide) (by decide)⟩

end IoTex
